import Mathlib

/-!
Verification of the godbg bridge (godbg.go): the layered static-resource
resolver (`chainedFileSystem`, `noReaddirFile`), the HTTP command dispatcher
(`addThreadHandlers`, `addFrameHandlers`, `addExecHandlers`,
`addBreakpointHandlers`), and the websocket event multiplexer loop in `main`.

External collaborators (the gdblib backend, Go's `encoding/json`, the network)
are modelled as oracles: each handler takes the outcome of its external calls
as explicit arguments, and the multiplexer loop takes the arrival sequence of
backend events together with oracles for marshalling and write outcomes.
Go error values are represented by their message text (`err.Error()`).
-/

namespace Godbg

/-! ## Resource resolver (godbg.go lines 16-41) -/

/-- Model of a Go `http.File` as used by the resolver: `handle` is the opaque
underlying file object (its Read/Seek/Stat/Close behaviour, which the resolver
passes through untouched), and `Readdir` is the directory-listing method,
`Readdir(count int) ([]os.FileInfo, error)`; `φ` stands for the underlying
file data and `ι` for `os.FileInfo`. -/
structure HttpFile (φ ι : Type) where
  handle : φ
  Readdir : Int → List ι × Option String

/-- Model of a Go `http.FileSystem`: `Open(name string) (http.File, error)`. -/
structure FileSystem (φ ι : Type) where
  Open : String → Except String (HttpFile φ ι)

/-- Translation of `noReaddirFile` (godbg.go lines 35-41): a wrapper around an
`http.File` whose `Readdir` method returns `nil, nil` (no entries, no error);
every other method is the embedded file's own. -/
def noReaddirFile (file : HttpFile φ ι) : HttpFile φ ι :=
  { file with Readdir := fun _count => ([], none) }

/-- Translation of `chainedFileSystem` (godbg.go lines 16-18): an ordered list
of providers. -/
structure chainedFileSystem (φ ι : Type) where
  fs : List (FileSystem φ ι)

/-- Translation of the loop body of `chainedFileSystem.Open` (godbg.go lines
20-33), by recursion on the provider list instead of the index `i`: on the
last provider (`i == lastIdx`) a failure is returned as is; any success is
returned wrapped in `noReaddirFile`; a failure before the last provider moves
on to the next one; the `errors.New("Algorithm failure")` fallthrough after
the loop is reached only when the list is empty. -/
def chainedOpenLoop (name : String) : List (FileSystem φ ι) → Except String (HttpFile φ ι)
  | [] => .error "Algorithm failure"
  | f :: rest =>
    match rest, f.Open name with
    | [], .error e => .error e
    | _, .ok file => .ok (noReaddirFile file)
    | _ :: _, .error _ => chainedOpenLoop name rest

/-- Translation of `chainedFileSystem.Open` (godbg.go lines 20-33). -/
def chainedFileSystem.Open (cfs : chainedFileSystem φ ι) (name : String) :
    Except String (HttpFile φ ι) :=
  chainedOpenLoop name cfs.fs

/-! ## Command dispatcher (godbg.go lines 156-539)

Each HTTP handler is a closure over the backend session; its externally
determined steps (body decode, backend call, result marshal, file open/copy)
are passed in as oracle arguments.  A handler produces the HTTP response
(status code and body, as written via `WriteHeader`/`Write`) together with
the parameter value the backend operation was invoked with (`none` when the
backend was never called). -/

/-- HTTP response as produced by a handler: the status code passed to
`WriteHeader` and the bytes passed to `Write`. -/
structure HttpResponse where
  status : Nat
  body : String
deriving DecidableEq

/-- Shared shape of the `/handle/thread/listids` (godbg.go lines 157-175) and
`/handle/frame/stackinfo` (lines 239-257) handlers: no request body; invoke
the backend operation; operation failure → 400 with the error text; marshal
failure → 500 with the error text; otherwise 200 with the marshalled bytes. -/
def listOpHandler (op : Except String ρ) (marshal : ρ → Except String String) :
    HttpResponse :=
  match op with
  | .error err => ⟨400, err⟩
  | .ok result =>
    match marshal result with
    | .error err => ⟨500, err⟩
    | .ok resultBytes => ⟨200, resultBytes⟩

/-- Translation of the `/handle/breakpoint/list` handler (godbg.go lines
443-461): same shape as `listOpHandler` except that a backend operation
failure is answered with status **500** (line 447), not 400. -/
def breakListHandler (op : Except String ρ) (marshal : ρ → Except String String) :
    HttpResponse :=
  match op with
  | .error err => ⟨500, err⟩
  | .ok result =>
    match marshal result with
    | .error err => ⟨500, err⟩
    | .ok resultBytes => ⟨200, resultBytes⟩

/-- Shared shape of the `/handle/thread/select` (godbg.go lines 176-205),
`/handle/thread/info` (206-235), `/handle/frame/stacklist` (258-287),
`/handle/frame/variableslist` (289-318) and `/handle/breakpoint/insert`
(463-492) handlers, which the source repeats verbatim per endpoint: decode
the body (failure → 400, backend never called); invoke the backend operation
with the decoded parameters (failure → 400); marshal the result (failure →
500); otherwise 200 with the marshalled bytes.  The second component is the
parameter value the backend was invoked with. -/
def decodeInvokeEncodeHandler (decodeBody : Except String π)
    (op : π → Except String ρ) (marshal : ρ → Except String String) :
    HttpResponse × Option π :=
  match decodeBody with
  | .error err => (⟨400, err⟩, none)
  | .ok parms =>
    match op parms with
    | .error err => (⟨400, err⟩, some parms)
    | .ok result =>
      match marshal result with
      | .error err => (⟨500, err⟩, some parms)
      | .ok resultBytes => (⟨200, resultBytes⟩, some parms)

/-- Shared shape of the five `/handle/exec/...` handlers (godbg.go lines
351-439): `err := decode; if err == nil { err = op(parms) }`; any error →
400 with the error text; otherwise 200 with an empty body.  The backend
operation returns only an error (`some` = the error's text). -/
def execHandler (decodeBody : Except String π) (op : π → Option String) :
    HttpResponse × Option π :=
  match decodeBody with
  | .error err => (⟨400, err⟩, none)
  | .ok parms =>
    match op parms with
    | some err => (⟨400, err⟩, some parms)
    | none => (⟨200, ""⟩, some parms)

/-- Shared shape of the `/handle/breakpoint/enable` (godbg.go lines 494-515)
and `/handle/breakpoint/disable` (517-538) handlers: decode failure → 400 and
the backend is never called; operation failure → 400; otherwise 200 with an
empty body. -/
def enableDisableHandler (decodeBody : Except String π) (op : π → Option String) :
    HttpResponse × Option π :=
  match decodeBody with
  | .error err => (⟨400, err⟩, none)
  | .ok parms =>
    match op parms with
    | some err => (⟨400, err⟩, some parms)
    | none => (⟨200, ""⟩, some parms)

/-- Translation of the `/handle/file/get` handler (godbg.go lines 320-347):
decode failure → 400; `os.Open` failure → **500** with the error text;
otherwise `WriteHeader(200)` followed by `io.Copy`; a copy failure appends
the error text to the already-started 200 body (the late `WriteHeader(500)`
on line 343 is a no-op, since net/http ignores a second `WriteHeader`).
`copyF` returns the bytes written so far and an optional error text. -/
def fileGetHandler (decodeBody : Except String π) (openF : π → Except String σ)
    (copyF : σ → String × Option String) : HttpResponse × Option π :=
  match decodeBody with
  | .error err => (⟨400, err⟩, none)
  | .ok parms =>
    match openF parms with
    | .error err => (⟨500, err⟩, some parms)
    | .ok file =>
      match copyF file with
      | (written, some err) => (⟨200, written ++ err⟩, some parms)
      | (written, none) => (⟨200, written⟩, some parms)

/-- Translation of the `/handle/gdb/exit` handler (godbg.go lines 139-141):
it calls `mygdb.GdbExit()` and writes nothing, so net/http answers 200 with
an empty body; the backend is always invoked. -/
def gdbExitHandler : HttpResponse × Bool :=
  (⟨200, ""⟩, true)

/-- The dispatcher endpoints registered in godbg.go. -/
inductive Endpoint where
  | threadListIds | threadSelect | threadInfo
  | frameStackInfo | frameStackList | frameVariablesList | fileGet
  | execNext | execStep | execContinue | execRun | execInterrupt
  | breakList | breakInsert | breakEnable | breakDisable
  | gdbExit
deriving DecidableEq

/-- Endpoints whose handler decodes a request body (godbg.go: every handler
containing `decoder.Decode(&parms)`). -/
def Endpoint.decodesBody : Endpoint → Bool
  | .threadSelect | .threadInfo | .frameStackList | .frameVariablesList
  | .fileGet | .execNext | .execStep | .execContinue | .execRun
  | .execInterrupt | .breakInsert | .breakEnable | .breakDisable => true
  | _ => false

/-- Endpoints whose handler marshals a typed backend result into the response
body (godbg.go: every handler containing `json.Marshal(result)`). -/
def Endpoint.encodesResult : Endpoint → Bool
  | .threadListIds | .threadSelect | .threadInfo | .frameStackInfo
  | .frameStackList | .frameVariablesList | .breakList | .breakInsert => true
  | _ => false

/-- Oracle bundle for one request: the outcome of the body decode, of each
kind of backend operation the endpoint might be bound to, of result
marshalling, and of the file open/copy used by `/handle/file/get`.
`π` is the endpoint's parameter type, `ρ` its result type, `σ` the open
file's type. -/
structure Env (π ρ σ : Type) where
  decodeBody : Except String π
  runOp : π → Except String ρ
  runNoParmOp : Except String ρ
  runErrOp : π → Option String
  marshal : ρ → Except String String
  openF : π → Except String σ
  copyF : σ → String × Option String

/-- One request against one dispatcher endpoint (godbg.go lines 139-141 and
156-539): the response, and whether the bound backend operation was invoked. -/
def dispatch (e : Endpoint) (env : Env π ρ σ) : HttpResponse × Bool :=
  match e with
  | .threadListIds => (listOpHandler env.runNoParmOp env.marshal, true)
  | .threadSelect =>
    let r := decodeInvokeEncodeHandler env.decodeBody env.runOp env.marshal
    (r.1, r.2.isSome)
  | .threadInfo =>
    let r := decodeInvokeEncodeHandler env.decodeBody env.runOp env.marshal
    (r.1, r.2.isSome)
  | .frameStackInfo => (listOpHandler env.runNoParmOp env.marshal, true)
  | .frameStackList =>
    let r := decodeInvokeEncodeHandler env.decodeBody env.runOp env.marshal
    (r.1, r.2.isSome)
  | .frameVariablesList =>
    let r := decodeInvokeEncodeHandler env.decodeBody env.runOp env.marshal
    (r.1, r.2.isSome)
  | .fileGet =>
    let r := fileGetHandler env.decodeBody env.openF env.copyF
    (r.1, r.2.isSome)
  | .execNext =>
    let r := execHandler env.decodeBody env.runErrOp
    (r.1, r.2.isSome)
  | .execStep =>
    let r := execHandler env.decodeBody env.runErrOp
    (r.1, r.2.isSome)
  | .execContinue =>
    let r := execHandler env.decodeBody env.runErrOp
    (r.1, r.2.isSome)
  | .execRun =>
    let r := execHandler env.decodeBody env.runErrOp
    (r.1, r.2.isSome)
  | .execInterrupt =>
    let r := execHandler env.decodeBody env.runErrOp
    (r.1, r.2.isSome)
  | .breakList => (breakListHandler env.runNoParmOp env.marshal, true)
  | .breakInsert =>
    let r := decodeInvokeEncodeHandler env.decodeBody env.runOp env.marshal
    (r.1, r.2.isSome)
  | .breakEnable =>
    let r := enableDisableHandler env.decodeBody env.runErrOp
    (r.1, r.2.isSome)
  | .breakDisable =>
    let r := enableDisableHandler env.decodeBody env.runErrOp
    (r.1, r.2.isSome)
  | .gdbExit => gdbExitHandler

/-! ## Event multiplexer (godbg.go lines 70-131)

The websocket handler's `for { select { ... } }` loop reads the four backend
channels (`Console`, `Target`, `InternalLog`, `AsyncResults`) and a fresh
30-second timer, re-armed on every iteration because `time.After` is called
anew inside the `select`.  The model serialises one resolution of the
`select` per iteration: backend events arrive as a time-stamped list (one
linearisation of the channels' arrivals), and when the next pending event is
30 or more time units after the last iteration the timer case fires first.
`json.Marshal` and `ws.Write` outcomes are oracles: marshalling is a
deterministic function of the envelope, write success is indexed by the
running count of write attempts.  The model runs the loop until the given
events are consumed (a finite prefix of the loop's infinite behaviour). -/

/-- Payload of a `webSockResult.Data` field (Go `interface{}`): the string
channels and the heartbeat carry strings, `AsyncResults` carries a gdblib
record (type parameter `α`). -/
inductive EnvelopeData (α : Type) where
  | str (s : String)
  | record (r : α)
deriving DecidableEq

/-- Translation of the `webSockResult` struct (godbg.go lines 71-74); the Go
field names are `Type` and `Data`. -/
structure WebSockResult (α : Type) where
  type : String
  data : EnvelopeData α
deriving DecidableEq

/-- One event received from a backend channel (godbg.go lines 78, 88, 98,
108): `Console`, `Target` and `InternalLog` carry strings, `AsyncResults`
carries a record of type `α`. -/
inductive GdbEvent (α : Type) where
  | console (data : String)
  | target (data : String)
  | internalLog (data : String)
  | asyncResult (record : α)
deriving DecidableEq

/-- The four backend channels. -/
inductive Channel where
  | console | target | internalLog | asyncResult
deriving DecidableEq

/-- The channel an event arrived on. -/
def GdbEvent.channel : GdbEvent α → Channel
  | .console _ => .console
  | .target _ => .target
  | .internalLog _ => .internalLog
  | .asyncResult _ => .asyncResult

/-- The kind string the loop tags each channel's envelopes with (godbg.go
lines 79, 89, 99, 109). -/
def Channel.typeString : Channel → String
  | .console => "console"
  | .target => "target"
  | .internalLog => "gdb"
  | .asyncResult => "async"

/-- The envelope built for a backend event: `webSockResult{Type: kind, Data:
data}` (godbg.go lines 79, 89, 99, 109). -/
def envelopeOf : GdbEvent α → WebSockResult α
  | .console d => ⟨"console", .str d⟩
  | .target d => ⟨"target", .str d⟩
  | .internalLog d => ⟨"gdb", .str d⟩
  | .asyncResult r => ⟨"async", .record r⟩

/-- The heartbeat envelope `webSockResult{Type: "heartbeat", Data: ""}`
(godbg.go line 120). -/
def heartbeatEnvelope : WebSockResult α := ⟨"heartbeat", .str ""⟩

/-- A backend event with its arrival time. -/
structure TimedEvent (α : Type) where
  time : Nat
  event : GdbEvent α
deriving DecidableEq

/-- Observable action of one loop iteration: a `ws.Write` attempt of a
marshalled envelope (with the write's outcome), or a `mygdb.GdbExit()` call
(godbg.go lines 81-85 and the four analogous blocks). -/
inductive MuxAction (α : Type) where
  | write (time : Nat) (env : WebSockResult α) (ok : Bool)
  | gdbExit (time : Nat)
deriving DecidableEq

/-- Translation of the multiplexer loop (godbg.go lines 76-130), run until
the listed backend events are consumed.  Arguments: `marshalOk` — whether
`json.Marshal` succeeds on a given envelope; `writeOk` — outcome of the n-th
`ws.Write` attempt; `wCount` — write attempts so far; `t0` — time of the last
loop iteration (the fresh `time.After(30 * time.Second)` measures from here);
then the pending events.  Each iteration: if the next event arrives within
30 units it is selected, its envelope marshalled (on failure the event is
dropped with no write and no exit, per the `if err == nil` guard), written,
and a write failure triggers `mygdb.GdbExit()`; otherwise the timer case
fires at `t0 + 30` and does the same with the heartbeat envelope.  The loop
body never breaks or returns: every iteration falls through to the next
`select`. -/
def muxLoop (marshalOk : WebSockResult α → Bool) (writeOk : Nat → Bool) :
    Nat → Nat → List (TimedEvent α) → List (MuxAction α)
  | _, _, [] => []
  | wCount, t0, e :: rest =>
    if e.time < t0 + 30 then
      let env := envelopeOf e.event
      if marshalOk env then
        let ok := writeOk wCount
        (MuxAction.write e.time env ok ::
          (if ok then [] else [MuxAction.gdbExit e.time])) ++
          muxLoop marshalOk writeOk (wCount + 1) e.time rest
      else
        muxLoop marshalOk writeOk wCount e.time rest
    else
      if marshalOk heartbeatEnvelope then
        let ok := writeOk wCount
        (MuxAction.write (t0 + 30) heartbeatEnvelope ok ::
          (if ok then [] else [MuxAction.gdbExit (t0 + 30)])) ++
          muxLoop marshalOk writeOk (wCount + 1) (t0 + 30) (e :: rest)
      else
        muxLoop marshalOk writeOk wCount (t0 + 30) (e :: rest)
termination_by _ t0 evs => (evs.length, (evs.head?.elim 0 TimedEvent.time) - t0)
decreasing_by
  · exact Prod.Lex.left _ _ (by simp)
  · exact Prod.Lex.left _ _ (by simp)
  · apply Prod.Lex.right
    simp only [List.head?_cons, Option.elim]
    omega
  · apply Prod.Lex.right
    simp only [List.head?_cons, Option.elim]
    omega

/-- The envelopes passed to `ws.Write`, in order. -/
def writtenEnvelopes : List (MuxAction α) → List (WebSockResult α)
  | [] => []
  | .write _ env _ :: rest => env :: writtenEnvelopes rest
  | .gdbExit _ :: rest => writtenEnvelopes rest

/-- The write attempts (time and envelope, outcome dropped), in order. -/
def writesOf : List (MuxAction α) → List (Nat × WebSockResult α)
  | [] => []
  | .write t env _ :: rest => (t, env) :: writesOf rest
  | .gdbExit _ :: rest => writesOf rest

/-- Checks that every `gdbExit` in an action list immediately follows a
failed write at the same time. -/
def gdbExitOnlyAfterFailedWrite : List (MuxAction α) → Bool
  | [] => true
  | .gdbExit _ :: _ => false
  | .write t _ false :: .gdbExit u :: rest =>
    t == u && gdbExitOnlyAfterFailedWrite rest
  | .write _ _ _ :: rest => gdbExitOnlyAfterFailedWrite rest

/-- Checks that every failed write is immediately followed by a `gdbExit` at
the same time. -/
def failedWritesExit : List (MuxAction α) → Bool
  | [] => true
  | .write t _ false :: rest =>
    match rest with
    | .gdbExit u :: rest2 => t == u && failedWritesExit rest2
    | _ => false
  | _ :: rest => failedWritesExit rest

/-- Whether an action is a write attempt of a data (non-heartbeat) envelope. -/
def MuxAction.isDataWrite : MuxAction α → Bool
  | .write _ env _ => env.type != "heartbeat"
  | .gdbExit _ => false

/-- Whether an action is a write attempt of a heartbeat envelope. -/
def MuxAction.isHeartbeatWrite : MuxAction α → Bool
  | .write _ env _ => env.type == "heartbeat"
  | .gdbExit _ => false

/-- The time at which an action happened. -/
def MuxAction.actTime : MuxAction α → Nat
  | .write t _ _ => t
  | .gdbExit t => t

/-! ## Resolver lemmas and claims C3, C9 -/

theorem chainedOpenLoop_ok_shape (name : String) :
    ∀ (l : List (FileSystem φ ι)) (file : HttpFile φ ι),
      chainedOpenLoop name l = .ok file → ∃ f, file = noReaddirFile f := by
  intro l
  induction l with
  | nil => intro file h; simp [chainedOpenLoop] at h
  | cons f rest ih =>
    intro file h
    rcases hrest : rest with _ | ⟨r, rs⟩
    · subst hrest
      rcases hopen : f.Open name with e | fl <;>
        simp [chainedOpenLoop, hopen] at h
      exact ⟨fl, h.symm⟩
    · subst hrest
      rcases hopen : f.Open name with e | fl
      · simp only [chainedOpenLoop, hopen] at h
        exact ih file h
      · simp [chainedOpenLoop, hopen] at h
        exact ⟨fl, h.symm⟩

theorem chainedOpenLoop_cons_fail (name : String) (q : FileSystem φ ι)
    (L : List (FileSystem φ ι)) (e : String) (he : q.Open name = .error e)
    (hne : L ≠ []) : chainedOpenLoop name (q :: L) = chainedOpenLoop name L := by
  rcases L with _ | ⟨x, xs⟩
  · exact absurd rfl hne
  · simp only [chainedOpenLoop, he]

theorem chainedOpenLoop_first_match (name : String) :
    ∀ (pre : List (FileSystem φ ι)) (p : FileSystem φ ι)
      (rest : List (FileSystem φ ι)) (file : HttpFile φ ι),
      (∀ q ∈ pre, ∃ e, q.Open name = .error e) →
      p.Open name = .ok file →
      chainedOpenLoop name (pre ++ p :: rest) = .ok (noReaddirFile file) := by
  intro pre
  induction pre with
  | nil =>
    intro p rest file _ hopen
    cases rest <;> simp [chainedOpenLoop, hopen]
  | cons q pre2 ih =>
    intro p rest file hfail hopen
    obtain ⟨e, he⟩ := hfail q (by simp)
    rw [List.cons_append, chainedOpenLoop_cons_fail name q _ e he (by simp)]
    exact ih p rest file (fun r hr => hfail r (by simp [hr])) hopen

theorem chainedOpenLoop_all_fail (name : String) :
    ∀ (l : List (FileSystem φ ι)) (lastP : FileSystem φ ι),
      l.getLast? = some lastP →
      (∀ q ∈ l, ∃ e, q.Open name = .error e) →
      chainedOpenLoop name l = lastP.Open name := by
  intro l
  induction l with
  | nil => intro lastP h; simp at h
  | cons f rest ih =>
    intro lastP hlast hfail
    obtain ⟨e, he⟩ := hfail f (by simp)
    rcases hrest : rest with _ | ⟨r, rs⟩
    · subst hrest
      simp at hlast
      subst hlast
      simp [chainedOpenLoop, he]
    · subst hrest
      simp only [List.getLast?_cons_cons] at hlast
      simp only [chainedOpenLoop, he]
      exact ih lastP hlast (fun q hq => hfail q (by simp [hq]))

/-- Claim C3: for every ordered provider list and asset name, `Open` returns
the first provider's successful handle (wrapped by `noReaddirFile`, through
which the underlying handle is passed); and when every provider fails, the
error returned is exactly the last provider's error — its `Open` result is
propagated unchanged. -/
theorem resolver_first_match_and_last_error (cfs : chainedFileSystem φ ι)
    (name : String) :
    (∀ pre p rest (file : HttpFile φ ι), cfs.fs = pre ++ p :: rest →
       (∀ q ∈ pre, ∃ e, q.Open name = .error e) →
       p.Open name = .ok file →
       cfs.Open name = .ok (noReaddirFile file)) ∧
    (∀ lastP, cfs.fs.getLast? = some lastP →
       (∀ q ∈ cfs.fs, ∃ e, q.Open name = .error e) →
       cfs.Open name = lastP.Open name) := by
  constructor
  · intro pre p rest file hsplit hfail hopen
    unfold chainedFileSystem.Open
    rw [hsplit]
    exact chainedOpenLoop_first_match name pre p rest file hfail hopen
  · intro lastP hlast hfail
    exact chainedOpenLoop_all_fail name cfs.fs lastP hlast hfail

/-- Witness for C3 at a concrete two-provider list: provider A lacks the
asset and B has it, so B's handle is returned; when both fail, B's error is
the one surfaced. -/
theorem resolver_first_match_and_last_error_witness :
    chainedFileSystem.Open
        (⟨[⟨fun _ => .error "eA"⟩,
           ⟨fun _ => .ok ⟨(), fun _ => ([()], some "boom")⟩⟩]⟩ :
          chainedFileSystem Unit Unit) "x" =
      .ok (noReaddirFile ⟨(), fun _ => ([()], some "boom")⟩) ∧
    chainedFileSystem.Open
        (⟨[⟨fun _ => .error "eA"⟩, ⟨fun _ => .error "eB"⟩]⟩ :
          chainedFileSystem Unit Unit) "x" =
      (⟨fun _ => .error "eB"⟩ : FileSystem Unit Unit).Open "x" := by
  constructor
  · exact (resolver_first_match_and_last_error _ "x").1
      [⟨fun _ => .error "eA"⟩] ⟨fun _ => .ok ⟨(), fun _ => ([()], some "boom")⟩⟩
      [] ⟨(), fun _ => ([()], some "boom")⟩ rfl
      (by intro q hq; simp at hq; subst hq; exact ⟨"eA", rfl⟩) rfl
  · exact (resolver_first_match_and_last_error _ "x").2
      ⟨fun _ => .error "eB"⟩ rfl
      (by
        intro q hq
        simp at hq
        rcases hq with h | h <;> subst h
        · exact ⟨"eA", rfl⟩
        · exact ⟨"eB", rfl⟩)

/-- Claim C9: every handle the resolver returns reports zero entries and no
error on `Readdir`, for every count argument, whatever the underlying
provider file's directory contents are. -/
theorem resolver_readdir_zero_entries (cfs : chainedFileSystem φ ι)
    (name : String) (file : HttpFile φ ι) (h : cfs.Open name = .ok file)
    (count : Int) : file.Readdir count = ([], none) := by
  obtain ⟨f, rfl⟩ := chainedOpenLoop_ok_shape name cfs.fs file h
  rfl

/-- Witness for C9: a provider whose file lists two entries still yields a
handle reporting zero entries. -/
theorem resolver_readdir_zero_entries_witness :
    (noReaddirFile (⟨(), fun _ => ([1, 2], none)⟩ : HttpFile Unit Nat)).Readdir 5 =
      ([], none) :=
  resolver_readdir_zero_entries
    (⟨[⟨fun _ => .ok ⟨(), fun _ => ([1, 2], none)⟩⟩]⟩ : chainedFileSystem Unit Nat)
    "x" _ rfl 5

/-! ## Dispatcher claims C1, C2, C7, C8 -/

/-- Oracle bundle for a request whose decode succeeds while every backend
call fails with the same message. -/
def envBackendErr : Env String String String :=
  { decodeBody := .ok "parms"
  , runOp := fun _ => .error "no gdb session"
  , runNoParmOp := .error "no gdb session"
  , runErrOp := fun _ => some "no gdb session"
  , marshal := fun r => .ok r
  , openF := fun _ => .error "no gdb session"
  , copyF := fun s => (s, none) }

/-- Counterexample to claim C1 as stated: on a backend operation failure the
`/handle/breakpoint/list` handler answers with status 500 (godbg.go line
447), not with the claimed client-error status 400. -/
theorem breakList_backend_error_not_400 :
    (dispatch Endpoint.breakList envBackendErr).1 = ⟨500, "no gdb session"⟩ ∧
      (dispatch Endpoint.breakList envBackendErr).1.status ≠ 400 := by
  exact ⟨rfl, by decide⟩

/-- Claim C1 (amended): when the request body decodes successfully (or no
decoding is required) and the bound backend operation fails, every endpoint
responds with status 400 and the backend error's text as the body, EXCEPT
`/handle/breakpoint/list` and `/handle/file/get`, which respond with status
500 and the error text.  (`/handle/gdb/exit` is excluded: its operation
returns no error.) -/
theorem dispatch_backend_error_status (e : Endpoint) (env : Env π ρ σ)
    (msg : String) (p : π)
    (hdec : env.decodeBody = .ok p)
    (hop : ∀ q, env.runOp q = .error msg)
    (hnp : env.runNoParmOp = .error msg)
    (herr : ∀ q, env.runErrOp q = some msg)
    (hopen : ∀ q, env.openF q = .error msg)
    (hne : e ≠ .gdbExit) :
    (dispatch e env).1 =
      ⟨if e = .breakList ∨ e = .fileGet then 500 else 400, msg⟩ := by
  cases e <;>
    first
      | exact absurd rfl hne
      | simp [dispatch, listOpHandler, breakListHandler,
          decodeInvokeEncodeHandler, execHandler, enableDisableHandler,
          fileGetHandler, hdec, hop, hnp, herr, hopen]

/-- Witness for the amended C1 at `/handle/thread/select` with a concrete
backend failure. -/
theorem dispatch_backend_error_status_witness :
    (dispatch Endpoint.threadSelect envBackendErr).1 = ⟨400, "no gdb session"⟩ :=
  dispatch_backend_error_status Endpoint.threadSelect envBackendErr
    "no gdb session" "parms" rfl (fun _ => rfl) rfl (fun _ => rfl)
    (fun _ => rfl) (by decide)

/-- Oracle bundle for a request whose body decode fails while every backend
call would succeed. -/
def envDecodeErr : Env String String String :=
  { decodeBody := .error "unexpected EOF"
  , runOp := fun _ => .ok "r"
  , runNoParmOp := .ok "r"
  , runErrOp := fun _ => none
  , marshal := fun r => .ok r
  , openF := fun _ => .ok "f"
  , copyF := fun s => (s, none) }

/-- Claim C2: for every endpoint that decodes a request body, a decode
failure yields status 400 with the decode error's text as the body, and the
bound backend operation is never invoked. -/
theorem dispatch_decode_failure (e : Endpoint) (env : Env π ρ σ) (msg : String)
    (hd : e.decodesBody = true) (hdec : env.decodeBody = .error msg) :
    dispatch e env = (⟨400, msg⟩, false) := by
  cases e <;> simp [Endpoint.decodesBody] at hd <;>
    simp [dispatch, decodeInvokeEncodeHandler, execHandler,
      enableDisableHandler, fileGetHandler, hdec]

/-- Witness for C2: a malformed body to `/handle/thread/select` produces a
400 with the decode error's text, and the backend is not invoked. -/
theorem dispatch_decode_failure_witness :
    dispatch Endpoint.threadSelect envDecodeErr = (⟨400, "unexpected EOF"⟩, false) :=
  dispatch_decode_failure Endpoint.threadSelect envDecodeErr "unexpected EOF"
    rfl rfl

/-- Oracle bundle where decode and backend succeed and marshalling succeeds. -/
def envEncodeOk : Env String String String :=
  { decodeBody := .ok "parms"
  , runOp := fun _ => .ok "result"
  , runNoParmOp := .ok "result"
  , runErrOp := fun _ => none
  , marshal := fun _ => .ok "encoded"
  , openF := fun _ => .ok "f"
  , copyF := fun s => (s, none) }

/-- Oracle bundle where decode and backend succeed but marshalling fails. -/
def envEncodeFail : Env String String String :=
  { decodeBody := .ok "parms"
  , runOp := fun _ => .ok "result"
  , runNoParmOp := .ok "result"
  , runErrOp := fun _ => none
  , marshal := fun _ => .error "marshal boom"
  , openF := fun _ => .ok "f"
  , copyF := fun s => (s, none) }

/-- Claim C7: for every endpoint that marshals a typed backend result, when
the backend operation succeeds, a marshal failure yields status 500 with the
marshal error's text as the body, and a marshal success yields status 200
with the marshalled bytes as the body. -/
theorem dispatch_encode_result (e : Endpoint) (env : Env π ρ σ) (p : π)
    (r : ρ) (mres : Except String String)
    (henc : e.encodesResult = true)
    (hdec : env.decodeBody = .ok p)
    (hop : ∀ q, env.runOp q = .ok r)
    (hnp : env.runNoParmOp = .ok r)
    (hm : ∀ s, env.marshal s = mres) :
    (dispatch e env).1 =
      match mres with
      | .error emsg => ⟨500, emsg⟩
      | .ok enc => ⟨200, enc⟩ := by
  cases e <;> simp [Endpoint.encodesResult] at henc <;>
    cases mres <;>
      simp [dispatch, listOpHandler, breakListHandler,
        decodeInvokeEncodeHandler, hdec, hop, hnp, hm]

/-- Witness for C7 at `/handle/thread/listids`: marshal success gives 200
with the encoded body, marshal failure gives 500 with the error text. -/
theorem dispatch_encode_result_witness :
    (dispatch Endpoint.threadListIds envEncodeOk).1 = ⟨200, "encoded"⟩ ∧
      (dispatch Endpoint.threadListIds envEncodeFail).1 = ⟨500, "marshal boom"⟩ :=
  ⟨dispatch_encode_result Endpoint.threadListIds envEncodeOk "parms" "result"
      (.ok "encoded") rfl rfl (fun _ => rfl) rfl (fun _ => rfl),
   dispatch_encode_result Endpoint.threadListIds envEncodeFail "parms" "result"
      (.error "marshal boom") rfl rfl (fun _ => rfl) rfl (fun _ => rfl)⟩

/-! ## Request-body decoding and claim C8 -/

/-- JSON document model for request bodies. -/
inductive Json where
  | null
  | jbool (b : Bool)
  | jnum (n : Int)
  | jstr (s : String)
  | jarr (elems : List Json)
  | jobj (fields : List (String × Json))

/-- Modelled from the spec: the backend collaborator's thread-select
parameter type ("a typed parameter value specific to each operation (e.g.,
thread-select parameters)").  The backend library is outside this
repository, so one representative exported string field stands for its
fields; its Go zero value is `⟨""⟩`. -/
structure ThreadSelectParms where
  ThreadId : String
deriving DecidableEq

/-- Decoding of a request body into `ThreadSelectParms` as performed by
`decoder.Decode(&parms)` in the `/handle/thread/select` handler (godbg.go
lines 179-180), following Go `encoding/json` unmarshalling semantics: a JSON
object populates the matching exported field; an ABSENT field keeps the
target's zero value and raises no error; JSON null leaves the target
unchanged; a field value of the wrong type is an error, as is a non-object,
non-null document. -/
def decodeThreadSelectParms : Json → Except String ThreadSelectParms
  | .null => .ok ⟨""⟩
  | .jobj fields =>
    match fields.lookup "ThreadId" with
    | none => .ok ⟨""⟩
    | some (.jstr s) => .ok ⟨s⟩
    | some .null => .ok ⟨""⟩
    | some _ =>
      .error "json: cannot unmarshal value into Go struct field ThreadSelectParms.ThreadId of type string"
  | _ =>
    .error "json: cannot unmarshal value into Go value of type gdblib.ThreadSelectParms"

/-- Counterexample to claim C8 as stated: the empty JSON object has every
field absent, yet decoding succeeds with the default-zeroed parameter value
and the backend thread-select operation IS invoked with it. -/
theorem decode_zero_value_invoked_counterexample :
    decodeThreadSelectParms (.jobj []) = .ok ⟨""⟩ ∧
      (decodeInvokeEncodeHandler (decodeThreadSelectParms (.jobj []))
          (fun _ => (.ok "r" : Except String String)) (fun s => .ok s)).2 =
        some ⟨""⟩ :=
  ⟨rfl, rfl⟩

/-- Claim C8 (amended): a request body that fails to decode is rejected
before the backend operation is called, and on a successful decode the
backend receives exactly the decoded parameter value — but a well-formed
body with absent fields decodes successfully to the default-zeroed value,
which is then passed to the backend. -/
theorem threadSelect_invoked_with_decoded (body : Json)
    (op : ThreadSelectParms → Except String ρ)
    (marshal : ρ → Except String String) :
    (∀ emsg, decodeThreadSelectParms body = .error emsg →
       (decodeInvokeEncodeHandler (decodeThreadSelectParms body) op marshal).2 =
         none) ∧
    (∀ parms, decodeThreadSelectParms body = .ok parms →
       (decodeInvokeEncodeHandler (decodeThreadSelectParms body) op marshal).2 =
         some parms) := by
  constructor
  · intro emsg h
    simp [decodeInvokeEncodeHandler, h]
  · intro parms h
    rcases hop : op parms with e | r
    · simp [decodeInvokeEncodeHandler, h, hop]
    · rcases hm : marshal r with e2 | b <;>
        simp [decodeInvokeEncodeHandler, h, hop, hm]

/-- Witness for the amended C8: a body carrying the field decodes to it and
the backend is invoked with exactly that value. -/
theorem threadSelect_invoked_with_decoded_witness :
    (decodeInvokeEncodeHandler
        (decodeThreadSelectParms (.jobj [("ThreadId", .jstr "2")]))
        (fun p => (.ok p.ThreadId : Except String String))
        (fun s => .ok s)).2 = some ⟨"2"⟩ :=
  (threadSelect_invoked_with_decoded (.jobj [("ThreadId", .jstr "2")])
    (fun p => (.ok p.ThreadId : Except String String)) (fun s => .ok s)).2
    ⟨"2"⟩ rfl

/-! ## Multiplexer lemmas and claims C4, C5, C6, C10 -/

theorem writtenEnvelopes_append (l1 l2 : List (MuxAction α)) :
    writtenEnvelopes (l1 ++ l2) = writtenEnvelopes l1 ++ writtenEnvelopes l2 := by
  induction l1 with
  | nil => rfl
  | cons a l ih => cases a <;> simp [writtenEnvelopes, ih]

theorem writesOf_append (l1 l2 : List (MuxAction α)) :
    writesOf (l1 ++ l2) = writesOf l1 ++ writesOf l2 := by
  induction l1 with
  | nil => rfl
  | cons a l ih => cases a <;> simp [writesOf, ih]

theorem envelopeOf_type (ev : GdbEvent α) :
    (envelopeOf ev).type = ev.channel.typeString := by
  cases ev <;> rfl

theorem channel_typeString_ne_heartbeat (ch : Channel) :
    ch.typeString ≠ "heartbeat" := by
  cases ch <;> decide

theorem envelopeOf_type_ne_heartbeat (ev : GdbEvent α) :
    (envelopeOf ev).type ≠ "heartbeat" := by
  cases ev <;> simp [envelopeOf]

theorem muxLoop_nil (mk : WebSockResult α → Bool) (wk : Nat → Bool)
    (c t0 : Nat) : muxLoop mk wk c t0 ([] : List (TimedEvent α)) = [] := by
  rw [muxLoop.eq_def]

theorem muxLoop_event_ok (mk : WebSockResult α → Bool) (wk : Nat → Bool)
    (c t0 : Nat) (e : TimedEvent α) (rest : List (TimedEvent α))
    (htime : e.time < t0 + 30) (hmk : mk (envelopeOf e.event) = true) :
    muxLoop mk wk c t0 (e :: rest) =
      (MuxAction.write e.time (envelopeOf e.event) (wk c) ::
        (if wk c then [] else [MuxAction.gdbExit e.time])) ++
        muxLoop mk wk (c + 1) e.time rest := by
  rw [muxLoop.eq_def]
  simp [htime, hmk]

theorem muxLoop_event_dropped (mk : WebSockResult α → Bool) (wk : Nat → Bool)
    (c t0 : Nat) (e : TimedEvent α) (rest : List (TimedEvent α))
    (htime : e.time < t0 + 30) (hmk : mk (envelopeOf e.event) = false) :
    muxLoop mk wk c t0 (e :: rest) = muxLoop mk wk c e.time rest := by
  rw [muxLoop.eq_def]
  simp [htime, hmk]

theorem muxLoop_hb_ok (mk : WebSockResult α → Bool) (wk : Nat → Bool)
    (c t0 : Nat) (e : TimedEvent α) (rest : List (TimedEvent α))
    (htime : ¬e.time < t0 + 30)
    (hmk : mk (heartbeatEnvelope : WebSockResult α) = true) :
    muxLoop mk wk c t0 (e :: rest) =
      (MuxAction.write (t0 + 30) heartbeatEnvelope (wk c) ::
        (if wk c then [] else [MuxAction.gdbExit (t0 + 30)])) ++
        muxLoop mk wk (c + 1) (t0 + 30) (e :: rest) := by
  rw [muxLoop.eq_def]
  simp [htime, hmk]

theorem muxLoop_hb_dropped (mk : WebSockResult α → Bool) (wk : Nat → Bool)
    (c t0 : Nat) (e : TimedEvent α) (rest : List (TimedEvent α))
    (htime : ¬e.time < t0 + 30)
    (hmk : mk (heartbeatEnvelope : WebSockResult α) = false) :
    muxLoop mk wk c t0 (e :: rest) = muxLoop mk wk c (t0 + 30) (e :: rest) := by
  rw [muxLoop.eq_def]
  simp [htime, hmk]

theorem muxLoop_heartbeatWrite_time_lb (mk : WebSockResult α → Bool)
    (wk : Nat → Bool) (c t0 : Nat) (evs : List (TimedEvent α)) :
    evs.Pairwise (fun a b => a.time ≤ b.time) →
    (∀ e ∈ evs, t0 ≤ e.time) →
    ∀ a ∈ muxLoop mk wk c t0 evs, a.isHeartbeatWrite = true →
      t0 + 30 ≤ a.actTime := by
  refine muxLoop.induct mk wk
    (fun c t0 evs =>
      evs.Pairwise (fun a b => a.time ≤ b.time) →
      (∀ e ∈ evs, t0 ≤ e.time) →
      ∀ a ∈ muxLoop mk wk c t0 evs, a.isHeartbeatWrite = true →
        t0 + 30 ≤ a.actTime)
    ?_ ?_ ?_ ?_ ?_ c t0 evs
  · intro c2 t2 _ _ a ha
    rw [muxLoop_nil] at ha
    simp at ha
  · intro wCount t2 e rest htime env hmk ih hsort hlb a ha hhb
    replace hmk : mk (envelopeOf e.event) = true := hmk
    rw [List.pairwise_cons] at hsort
    rw [muxLoop_event_ok mk wk wCount t2 e rest htime hmk] at ha
    rcases List.mem_append.mp ha with hc | hrec
    · rcases List.mem_cons.mp hc with rfl | hc2
      · simp [MuxAction.isHeartbeatWrite, envelopeOf_type_ne_heartbeat] at hhb
      · rcases hok : wk wCount with _ | _ <;> rw [hok] at hc2 <;> simp at hc2
        subst hc2
        simp [MuxAction.isHeartbeatWrite] at hhb
    · have hbound := ih hsort.2 (fun e2 he2 => hsort.1 e2 he2) a hrec hhb
      have := hlb e (List.mem_cons_self e rest)
      omega
  · intro wCount t2 e rest htime env hmk ih hsort hlb a ha hhb
    replace hmk : mk (envelopeOf e.event) = false := by
      rcases h : mk (envelopeOf e.event) with _ | _
      · rfl
      · exact absurd h hmk
    rw [List.pairwise_cons] at hsort
    rw [muxLoop_event_dropped mk wk wCount t2 e rest htime hmk] at ha
    have hbound := ih hsort.2 (fun e2 he2 => hsort.1 e2 he2) a ha hhb
    have := hlb e (List.mem_cons_self e rest)
    omega
  · intro wCount t2 e rest htime hmk ih hsort hlb a ha hhb
    rw [muxLoop_hb_ok mk wk wCount t2 e rest htime hmk] at ha
    rcases List.mem_append.mp ha with hc | hrec
    · rcases List.mem_cons.mp hc with rfl | hc2
      · simp [MuxAction.actTime]
      · rcases hok : wk wCount with _ | _ <;> rw [hok] at hc2 <;> simp at hc2
        subst hc2
        simp [MuxAction.isHeartbeatWrite] at hhb
    · have hlb2 : ∀ e2 ∈ e :: rest, t2 + 30 ≤ e2.time := by
        intro e2 he2
        rcases List.mem_cons.mp he2 with rfl | he3
        · omega
        · have h1 := (List.pairwise_cons.mp hsort).1 e2 he3
          omega
      have hbound := ih hsort hlb2 a hrec hhb
      omega
  · intro wCount t2 e rest htime hmk ih hsort hlb a ha hhb
    replace hmk : mk (heartbeatEnvelope : WebSockResult α) = false := by
      rcases h : mk (heartbeatEnvelope : WebSockResult α) with _ | _
      · rfl
      · exact absurd h hmk
    rw [muxLoop_hb_dropped mk wk wCount t2 e rest htime hmk] at ha
    have hlb2 : ∀ e2 ∈ e :: rest, t2 + 30 ≤ e2.time := by
      intro e2 he2
      rcases List.mem_cons.mp he2 with rfl | he3
      · omega
      · have h1 := (List.pairwise_cons.mp hsort).1 e2 he3
        omega
    have hbound := ih hsort hlb2 a ha hhb
    omega

theorem muxLoop_heartbeat_env_shape (mk : WebSockResult α → Bool)
    (wk : Nat → Bool) (c t0 : Nat) (evs : List (TimedEvent α)) :
    ∀ a ∈ muxLoop mk wk c t0 evs, ∀ t env ok, a = MuxAction.write t env ok →
      env.type = "heartbeat" → env = heartbeatEnvelope := by
  refine muxLoop.induct mk wk
    (fun c t0 evs => ∀ a ∈ muxLoop mk wk c t0 evs, ∀ t env ok,
      a = MuxAction.write t env ok → env.type = "heartbeat" →
      env = heartbeatEnvelope)
    ?_ ?_ ?_ ?_ ?_ c t0 evs
  · intro c2 t2 a ha
    rw [muxLoop_nil] at ha
    simp at ha
  · intro wCount t2 e rest htime env0 hmk ih a ha t env ok heq htype
    replace hmk : mk (envelopeOf e.event) = true := hmk
    rw [muxLoop_event_ok mk wk wCount t2 e rest htime hmk] at ha
    rcases List.mem_append.mp ha with hc | hrec
    · rcases List.mem_cons.mp hc with rfl | hc2
      · cases heq
        exact absurd htype (envelopeOf_type_ne_heartbeat e.event)
      · rcases hok : wk wCount with _ | _ <;> rw [hok] at hc2 <;> simp at hc2
        subst hc2
        simp at heq
    · exact ih a hrec t env ok heq htype
  · intro wCount t2 e rest htime env0 hmk ih a ha t env ok heq htype
    replace hmk : mk (envelopeOf e.event) = false := by
      rcases h : mk (envelopeOf e.event) with _ | _
      · rfl
      · exact absurd h hmk
    rw [muxLoop_event_dropped mk wk wCount t2 e rest htime hmk] at ha
    exact ih a ha t env ok heq htype
  · intro wCount t2 e rest htime hmk ih a ha t env ok heq htype
    rw [muxLoop_hb_ok mk wk wCount t2 e rest htime hmk] at ha
    rcases List.mem_append.mp ha with hc | hrec
    · rcases List.mem_cons.mp hc with rfl | hc2
      · cases heq
        rfl
      · rcases hok : wk wCount with _ | _ <;> rw [hok] at hc2 <;> simp at hc2
        subst hc2
        simp at heq
    · exact ih a hrec t env ok heq htype
  · intro wCount t2 e rest htime hmk ih a ha t env ok heq htype
    replace hmk : mk (heartbeatEnvelope : WebSockResult α) = false := by
      rcases h : mk (heartbeatEnvelope : WebSockResult α) with _ | _
      · rfl
      · exact absurd h hmk
    rw [muxLoop_hb_dropped mk wk wCount t2 e rest htime hmk] at ha
    exact ih a ha t env ok heq htype

theorem muxLoop_failedWritesExit (mk : WebSockResult α → Bool) (wk : Nat → Bool)
    (c t0 : Nat) (evs : List (TimedEvent α)) :
    failedWritesExit (muxLoop mk wk c t0 evs) = true := by
  refine muxLoop.induct mk wk
    (fun c t0 evs => failedWritesExit (muxLoop mk wk c t0 evs) = true)
    ?_ ?_ ?_ ?_ ?_ c t0 evs
  · intro c2 t2
    rw [muxLoop_nil]
    rfl
  · intro wCount t2 e rest htime env0 hmk ih
    replace hmk : mk (envelopeOf e.event) = true := hmk
    rw [muxLoop_event_ok mk wk wCount t2 e rest htime hmk]
    rcases hok : wk wCount with _ | _ <;> simp [failedWritesExit, ih]
  · intro wCount t2 e rest htime env0 hmk ih
    replace hmk : mk (envelopeOf e.event) = false := by
      rcases h : mk (envelopeOf e.event) with _ | _
      · rfl
      · exact absurd h hmk
    rw [muxLoop_event_dropped mk wk wCount t2 e rest htime hmk]
    exact ih
  · intro wCount t2 e rest htime hmk ih
    rw [muxLoop_hb_ok mk wk wCount t2 e rest htime hmk]
    rcases hok : wk wCount with _ | _ <;> simp [failedWritesExit, ih]
  · intro wCount t2 e rest htime hmk ih
    replace hmk : mk (heartbeatEnvelope : WebSockResult α) = false := by
      rcases h : mk (heartbeatEnvelope : WebSockResult α) with _ | _
      · rfl
      · exact absurd h hmk
    rw [muxLoop_hb_dropped mk wk wCount t2 e rest htime hmk]
    exact ih

theorem muxLoop_gdbExitOnlyAfterFailedWrite (mk : WebSockResult α → Bool)
    (wk : Nat → Bool) (c t0 : Nat) (evs : List (TimedEvent α)) :
    gdbExitOnlyAfterFailedWrite (muxLoop mk wk c t0 evs) = true := by
  refine muxLoop.induct mk wk
    (fun c t0 evs => gdbExitOnlyAfterFailedWrite (muxLoop mk wk c t0 evs) = true)
    ?_ ?_ ?_ ?_ ?_ c t0 evs
  · intro c2 t2
    rw [muxLoop_nil]
    rfl
  · intro wCount t2 e rest htime env0 hmk ih
    replace hmk : mk (envelopeOf e.event) = true := hmk
    rw [muxLoop_event_ok mk wk wCount t2 e rest htime hmk]
    rcases hok : wk wCount with _ | _ <;> simp [gdbExitOnlyAfterFailedWrite, ih]
  · intro wCount t2 e rest htime env0 hmk ih
    replace hmk : mk (envelopeOf e.event) = false := by
      rcases h : mk (envelopeOf e.event) with _ | _
      · rfl
      · exact absurd h hmk
    rw [muxLoop_event_dropped mk wk wCount t2 e rest htime hmk]
    exact ih
  · intro wCount t2 e rest htime hmk ih
    rw [muxLoop_hb_ok mk wk wCount t2 e rest htime hmk]
    rcases hok : wk wCount with _ | _ <;> simp [gdbExitOnlyAfterFailedWrite, ih]
  · intro wCount t2 e rest htime hmk ih
    replace hmk : mk (heartbeatEnvelope : WebSockResult α) = false := by
      rcases h : mk (heartbeatEnvelope : WebSockResult α) with _ | _
      · rfl
      · exact absurd h hmk
    rw [muxLoop_hb_dropped mk wk wCount t2 e rest htime hmk]
    exact ih

/-- How many GdbExit calls an action list contains. -/
def countGdbExits (l : List (MuxAction α)) : Nat :=
  l.countP fun a => match a with | .gdbExit _ => true | _ => false

/-- How many failed write attempts an action list contains. -/
def countFailedWrites (l : List (MuxAction α)) : Nat :=
  l.countP fun a => match a with | .write _ _ false => true | _ => false

theorem muxLoop_exit_count (mk : WebSockResult α → Bool) (wk : Nat → Bool)
    (c t0 : Nat) (evs : List (TimedEvent α)) :
    countGdbExits (muxLoop mk wk c t0 evs) =
      countFailedWrites (muxLoop mk wk c t0 evs) := by
  refine muxLoop.induct mk wk
    (fun c t0 evs => countGdbExits (muxLoop mk wk c t0 evs) =
      countFailedWrites (muxLoop mk wk c t0 evs))
    ?_ ?_ ?_ ?_ ?_ c t0 evs
  · intro c2 t2
    rw [muxLoop_nil]
    rfl
  · intro wCount t2 e rest htime env0 hmk ih
    replace hmk : mk (envelopeOf e.event) = true := hmk
    rw [muxLoop_event_ok mk wk wCount t2 e rest htime hmk]
    rcases hok : wk wCount with _ | _ <;>
      simp [countGdbExits, countFailedWrites] at ih ⊢ <;> omega
  · intro wCount t2 e rest htime env0 hmk ih
    replace hmk : mk (envelopeOf e.event) = false := by
      rcases h : mk (envelopeOf e.event) with _ | _
      · rfl
      · exact absurd h hmk
    rw [muxLoop_event_dropped mk wk wCount t2 e rest htime hmk]
    exact ih
  · intro wCount t2 e rest htime hmk ih
    rw [muxLoop_hb_ok mk wk wCount t2 e rest htime hmk]
    rcases hok : wk wCount with _ | _ <;>
      simp [countGdbExits, countFailedWrites] at ih ⊢ <;> omega
  · intro wCount t2 e rest htime hmk ih
    replace hmk : mk (heartbeatEnvelope : WebSockResult α) = false := by
      rcases h : mk (heartbeatEnvelope : WebSockResult α) with _ | _
      · rfl
      · exact absurd h hmk
    rw [muxLoop_hb_dropped mk wk wCount t2 e rest htime hmk]
    exact ih

theorem muxLoop_pairwise_data_hb (mk : WebSockResult α → Bool)
    (wk : Nat → Bool) (c t0 : Nat) (evs : List (TimedEvent α)) :
    evs.Pairwise (fun a b => a.time ≤ b.time) →
    (∀ e ∈ evs, t0 ≤ e.time) →
    (muxLoop mk wk c t0 evs).Pairwise
      (fun a b => a.isDataWrite = true → b.isHeartbeatWrite = true →
        a.actTime + 30 ≤ b.actTime) := by
  refine muxLoop.induct mk wk
    (fun c t0 evs =>
      evs.Pairwise (fun a b => a.time ≤ b.time) →
      (∀ e ∈ evs, t0 ≤ e.time) →
      (muxLoop mk wk c t0 evs).Pairwise
        (fun a b => a.isDataWrite = true → b.isHeartbeatWrite = true →
          a.actTime + 30 ≤ b.actTime))
    ?_ ?_ ?_ ?_ ?_ c t0 evs
  · intro c2 t2 _ _
    rw [muxLoop_nil]
    exact List.Pairwise.nil
  · intro wCount t2 e rest htime env0 hmk ih hsort hlb
    replace hmk : mk (envelopeOf e.event) = true := hmk
    rw [List.pairwise_cons] at hsort
    rw [muxLoop_event_ok mk wk wCount t2 e rest htime hmk,
      List.pairwise_append]
    refine ⟨?_, ih hsort.2 (fun e2 he2 => hsort.1 e2 he2), ?_⟩
    · rcases hok : wk wCount with _ | _ <;>
        simp [MuxAction.isDataWrite, MuxAction.isHeartbeatWrite]
    · intro a ha b hb hdata hhb
      have hbtime := muxLoop_heartbeatWrite_time_lb mk wk (wCount + 1)
        e.time rest hsort.2 (fun e2 he2 => hsort.1 e2 he2) b hb hhb
      rcases List.mem_cons.mp ha with rfl | ha2
      · exact hbtime
      · rcases hok : wk wCount with _ | _ <;> rw [hok] at ha2 <;> simp at ha2
        subst ha2
        simp [MuxAction.isDataWrite] at hdata
  · intro wCount t2 e rest htime env0 hmk ih hsort hlb
    replace hmk : mk (envelopeOf e.event) = false := by
      rcases h : mk (envelopeOf e.event) with _ | _
      · rfl
      · exact absurd h hmk
    rw [List.pairwise_cons] at hsort
    rw [muxLoop_event_dropped mk wk wCount t2 e rest htime hmk]
    exact ih hsort.2 (fun e2 he2 => hsort.1 e2 he2)
  · intro wCount t2 e rest htime hmk ih hsort hlb
    have hlb2 : ∀ e2 ∈ e :: rest, t2 + 30 ≤ e2.time := by
      intro e2 he2
      rcases List.mem_cons.mp he2 with rfl | he3
      · omega
      · have h1 := (List.pairwise_cons.mp hsort).1 e2 he3
        omega
    rw [muxLoop_hb_ok mk wk wCount t2 e rest htime hmk, List.pairwise_append]
    refine ⟨?_, ih hsort hlb2, ?_⟩
    · rcases hok : wk wCount with _ | _ <;>
        simp [MuxAction.isDataWrite, MuxAction.isHeartbeatWrite]
    · intro a ha b hb hdata hhb
      rcases List.mem_cons.mp ha with rfl | ha2
      · simp [MuxAction.isDataWrite, heartbeatEnvelope] at hdata
      · rcases hok : wk wCount with _ | _ <;> rw [hok] at ha2 <;> simp at ha2
        subst ha2
        simp [MuxAction.isDataWrite] at hdata
  · intro wCount t2 e rest htime hmk ih hsort hlb
    replace hmk : mk (heartbeatEnvelope : WebSockResult α) = false := by
      rcases h : mk (heartbeatEnvelope : WebSockResult α) with _ | _
      · rfl
      · exact absurd h hmk
    have hlb2 : ∀ e2 ∈ e :: rest, t2 + 30 ≤ e2.time := by
      intro e2 he2
      rcases List.mem_cons.mp he2 with rfl | he3
      · omega
      · have h1 := (List.pairwise_cons.mp hsort).1 e2 he3
        omega
    rw [muxLoop_hb_dropped mk wk wCount t2 e rest htime hmk]
    exact ih hsort hlb2

/-- Claim C5: the heartbeat period is 30 units measured from the last loop
iteration of any kind (the `time.After` timer is re-created each iteration),
so after a data envelope write at time T no heartbeat write occurs before
T + 30; every heartbeat write carries the envelope with Type "heartbeat" and
empty-string Data; and every failed write — heartbeat writes included — is
immediately followed by the same GdbExit session-termination call as a failed
data-channel write. -/
theorem mux_heartbeat_behavior (mk : WebSockResult α → Bool) (wk : Nat → Bool)
    (c t0 : Nat) (evs : List (TimedEvent α))
    (hsort : evs.Pairwise (fun a b => a.time ≤ b.time))
    (hlb : ∀ e ∈ evs, t0 ≤ e.time) :
    (muxLoop mk wk c t0 evs).Pairwise
        (fun a b => a.isDataWrite = true → b.isHeartbeatWrite = true →
          a.actTime + 30 ≤ b.actTime) ∧
      (∀ a ∈ muxLoop mk wk c t0 evs, ∀ t env ok,
        a = MuxAction.write t env ok → env.type = "heartbeat" →
        env = heartbeatEnvelope) ∧
      failedWritesExit (muxLoop mk wk c t0 evs) = true :=
  ⟨muxLoop_pairwise_data_hb mk wk c t0 evs hsort hlb,
   muxLoop_heartbeat_env_shape mk wk c t0 evs,
   muxLoop_failedWritesExit mk wk c t0 evs⟩

/-- Witness for C5 on a concrete timed trace: an event at time 5, then one
at time 100, between which heartbeats are due. -/
theorem mux_heartbeat_behavior_witness :
    (muxLoop (fun _ => true) (fun _ => true) 0 0
        ([⟨5, .console "hi"⟩, ⟨100, .target "x"⟩] : List (TimedEvent Unit))).Pairwise
        (fun a b => a.isDataWrite = true → b.isHeartbeatWrite = true →
          a.actTime + 30 ≤ b.actTime) ∧
      failedWritesExit (muxLoop (fun _ => true) (fun _ => true) 0 0
        ([⟨5, .console "hi"⟩, ⟨100, .target "x"⟩] : List (TimedEvent Unit))) =
        true :=
  ⟨(mux_heartbeat_behavior (fun _ => true) (fun _ => true) 0 0
      [⟨5, .console "hi"⟩, ⟨100, .target "x"⟩] (by decide) (by decide)).1,
   (mux_heartbeat_behavior (fun _ => true) (fun _ => true) 0 0
      [⟨5, .console "hi"⟩, ⟨100, .target "x"⟩] (by decide) (by decide)).2.2⟩

/-! ## Per-channel ordering and marshal-failure claims C6, C4, C10 -/

theorem envelopeOf_type_beq (ev : GdbEvent α) (ch : Channel) :
    ((envelopeOf ev).type == ch.typeString) = (ev.channel == ch) := by
  cases ev <;> cases ch <;> rfl

theorem heartbeat_type_beq_false (ch : Channel) :
    (((heartbeatEnvelope : WebSockResult α)).type == ch.typeString) = false := by
  cases ch <;> rfl

theorem muxLoop_written_provenance (mk : WebSockResult α → Bool)
    (wk : Nat → Bool) (c t0 : Nat) (evs : List (TimedEvent α)) :
    ∀ env ∈ writtenEnvelopes (muxLoop mk wk c t0 evs),
      (∃ e ∈ evs, env = envelopeOf e.event) ∨ env = heartbeatEnvelope := by
  refine muxLoop.induct mk wk
    (fun c t0 evs => ∀ env ∈ writtenEnvelopes (muxLoop mk wk c t0 evs),
      (∃ e ∈ evs, env = envelopeOf e.event) ∨ env = heartbeatEnvelope)
    ?_ ?_ ?_ ?_ ?_ c t0 evs
  · intro c2 t2 env henv
    rw [muxLoop_nil] at henv
    simp [writtenEnvelopes] at henv
  · intro wCount t2 e rest htime env0 hmk ih env henv
    replace hmk : mk (envelopeOf e.event) = true := hmk
    rw [muxLoop_event_ok mk wk wCount t2 e rest htime hmk,
      writtenEnvelopes_append] at henv
    rcases List.mem_append.mp henv with hc | hrec
    · left
      refine ⟨e, List.mem_cons_self e rest, ?_⟩
      rcases hok : wk wCount with _ | _ <;> rw [hok] at hc <;>
        simp [writtenEnvelopes] at hc <;> exact hc
    · rcases ih env hrec with ⟨e2, he2, heq⟩ | hhb
      · exact Or.inl ⟨e2, List.mem_cons_of_mem e he2, heq⟩
      · exact Or.inr hhb
  · intro wCount t2 e rest htime env0 hmk ih env henv
    replace hmk : mk (envelopeOf e.event) = false := by
      rcases h : mk (envelopeOf e.event) with _ | _
      · rfl
      · exact absurd h hmk
    rw [muxLoop_event_dropped mk wk wCount t2 e rest htime hmk] at henv
    rcases ih env henv with ⟨e2, he2, heq⟩ | hhb
    · exact Or.inl ⟨e2, List.mem_cons_of_mem e he2, heq⟩
    · exact Or.inr hhb
  · intro wCount t2 e rest htime hmk ih env henv
    rw [muxLoop_hb_ok mk wk wCount t2 e rest htime hmk,
      writtenEnvelopes_append] at henv
    rcases List.mem_append.mp henv with hc | hrec
    · right
      rcases hok : wk wCount with _ | _ <;> rw [hok] at hc <;>
        simp [writtenEnvelopes] at hc <;> exact hc
    · exact ih env hrec
  · intro wCount t2 e rest htime hmk ih env henv
    replace hmk : mk (heartbeatEnvelope : WebSockResult α) = false := by
      rcases h : mk (heartbeatEnvelope : WebSockResult α) with _ | _
      · rfl
      · exact absurd h hmk
    rw [muxLoop_hb_dropped mk wk wCount t2 e rest htime hmk] at henv
    exact ih env henv

theorem muxLoop_filter_channel (mk : WebSockResult α → Bool) (wk : Nat → Bool)
    (hmk : ∀ env, mk env = true) (ch : Channel) (c t0 : Nat)
    (evs : List (TimedEvent α)) :
    (writtenEnvelopes (muxLoop mk wk c t0 evs)).filter
        (fun env => env.type == ch.typeString) =
      (evs.filter (fun e => e.event.channel == ch)).map
        (fun e => envelopeOf e.event) := by
  refine muxLoop.induct mk wk
    (fun c t0 evs => (writtenEnvelopes (muxLoop mk wk c t0 evs)).filter
        (fun env => env.type == ch.typeString) =
      (evs.filter (fun e => e.event.channel == ch)).map
        (fun e => envelopeOf e.event))
    ?_ ?_ ?_ ?_ ?_ c t0 evs
  · intro c2 t2
    rw [muxLoop_nil]
    rfl
  · intro wCount t2 e rest htime env0 hmk2 ih
    rw [muxLoop_event_ok mk wk wCount t2 e rest htime (hmk _),
      writtenEnvelopes_append]
    have hchunk : writtenEnvelopes
        (MuxAction.write e.time (envelopeOf e.event) (wk wCount) ::
          (if wk wCount then [] else [MuxAction.gdbExit e.time])) =
        [envelopeOf e.event] := by
      rcases hok : wk wCount with _ | _ <;> simp [writtenEnvelopes]
    rw [hchunk]
    rcases hch : e.event.channel == ch with _ | _ <;>
      simp [List.filter_append, List.filter_cons, envelopeOf_type_beq, hch, ih]
  · intro wCount t2 e rest htime env0 hmk2 ih
    exact absurd (hmk (envelopeOf e.event)) hmk2
  · intro wCount t2 e rest htime hmk2 ih
    rw [muxLoop_hb_ok mk wk wCount t2 e rest htime (hmk _),
      writtenEnvelopes_append]
    have hchunk : writtenEnvelopes
        (MuxAction.write (t2 + 30) heartbeatEnvelope (wk wCount) ::
          (if wk wCount then [] else [MuxAction.gdbExit (t2 + 30)])) =
        [(heartbeatEnvelope : WebSockResult α)] := by
      rcases hok : wk wCount with _ | _ <;> simp [writtenEnvelopes]
    rw [hchunk]
    simp [List.filter_append, List.filter_cons, heartbeat_type_beq_false, ih]
  · intro wCount t2 e rest htime hmk2 ih
    exact absurd (hmk (heartbeatEnvelope : WebSockResult α)) hmk2

/-- Claim C6: when marshalling succeeds, the envelopes written for the
events of one backend channel appear in exactly the channel's emission
order, each as a webSockResult whose Type is that channel's kind string and
whose Data carries the event's payload; and every written envelope is either
such a wrapped backend event or the heartbeat envelope (Type "heartbeat",
empty-string Data). -/
theorem mux_per_channel_order (mk : WebSockResult α → Bool) (wk : Nat → Bool)
    (c t0 : Nat) (evs : List (TimedEvent α)) (ch : Channel)
    (hmk : ∀ env, mk env = true) :
    (writtenEnvelopes (muxLoop mk wk c t0 evs)).filter
        (fun env => env.type == ch.typeString) =
      (evs.filter (fun e => e.event.channel == ch)).map
        (fun e => envelopeOf e.event) ∧
    ∀ env ∈ writtenEnvelopes (muxLoop mk wk c t0 evs),
      (∃ e ∈ evs, env = envelopeOf e.event) ∨ env = heartbeatEnvelope :=
  ⟨muxLoop_filter_channel mk wk hmk ch c t0 evs,
   muxLoop_written_provenance mk wk c t0 evs⟩

/-- Witness for C6 on a concrete interleaved trace: the console-channel
envelopes come out in console order. -/
theorem mux_per_channel_order_witness :
    (writtenEnvelopes (muxLoop (fun _ => true) (fun _ => true) 0 0
        ([⟨0, .console "a"⟩, ⟨1, .target "b"⟩, ⟨2, .console "c"⟩] :
          List (TimedEvent Unit)))).filter
        (fun env => env.type == Channel.typeString .console) =
      (([⟨0, .console "a"⟩, ⟨1, .target "b"⟩, ⟨2, .console "c"⟩] :
          List (TimedEvent Unit)).filter
        (fun e => e.event.channel == Channel.console)).map
        (fun e => envelopeOf e.event) :=
  (mux_per_channel_order (fun _ => true) (fun _ => true) 0 0
    [⟨0, .console "a"⟩, ⟨1, .target "b"⟩, ⟨2, .console "c"⟩] Channel.console
    (fun _ => rfl)).1

/-- Counterexample to claim C4 as stated: with two pending console events
and every client write failing, the loop invokes the session-termination
call after the first failed write (action index 1) and then still attempts a
further envelope write (action index 2) — the loop does not exit on a write
failure and further envelope writes are attempted after termination is
invoked. -/
theorem mux_write_after_exit_counterexample :
    muxLoop (fun _ => true) (fun _ => false) 0 0
        ([⟨0, .console "a"⟩, ⟨1, .console "b"⟩] : List (TimedEvent Unit)) =
      [MuxAction.write 0 ⟨"console", .str "a"⟩ false, MuxAction.gdbExit 0,
       MuxAction.write 1 ⟨"console", .str "b"⟩ false, MuxAction.gdbExit 1] ∧
    (muxLoop (fun _ => true) (fun _ => false) 0 0
        ([⟨0, .console "a"⟩, ⟨1, .console "b"⟩] : List (TimedEvent Unit)))[1]? =
      some (MuxAction.gdbExit 0) ∧
    (muxLoop (fun _ => true) (fun _ => false) 0 0
        ([⟨0, .console "a"⟩, ⟨1, .console "b"⟩] : List (TimedEvent Unit)))[2]? =
      some (MuxAction.write 1 ⟨"console", .str "b"⟩ false) := by
  have h : muxLoop (fun _ => true) (fun _ => false) 0 0
      ([⟨0, .console "a"⟩, ⟨1, .console "b"⟩] : List (TimedEvent Unit)) =
      [MuxAction.write 0 ⟨"console", .str "a"⟩ false, MuxAction.gdbExit 0,
       MuxAction.write 1 ⟨"console", .str "b"⟩ false, MuxAction.gdbExit 1] := by
    rw [muxLoop_event_ok (fun _ => true) (fun _ => false) 0 0
          ⟨0, .console "a"⟩ [⟨1, .console "b"⟩] (by decide) rfl,
        muxLoop_event_ok (fun _ => true) (fun _ => false) 1 0
          ⟨1, .console "b"⟩ [] (by decide) rfl,
        muxLoop_nil]
    rfl
  refine ⟨h, ?_, ?_⟩ <;> rw [h] <;> rfl

/-- Claim C4 (amended): a failed write immediately triggers the GdbExit
session-termination call, and nothing else triggers one; but the loop itself
does not exit — the sequence of envelope write attempts is the same whatever
the write outcomes, so envelope writes may still be attempted after
termination was invoked, and the loop has no exit cause of its own. -/
theorem mux_no_exit_on_write_failure (mk : WebSockResult α → Bool)
    (wk wk2 : Nat → Bool) (c c2 t0 : Nat) (evs : List (TimedEvent α)) :
    gdbExitOnlyAfterFailedWrite (muxLoop mk wk c t0 evs) = true ∧
    writesOf (muxLoop mk wk c t0 evs) = writesOf (muxLoop mk wk2 c2 t0 evs) := by
  refine ⟨muxLoop_gdbExitOnlyAfterFailedWrite mk wk c t0 evs, ?_⟩
  refine muxLoop.induct mk wk
    (fun c t0 evs => ∀ (wk3 : Nat → Bool) (c3 : Nat),
      writesOf (muxLoop mk wk c t0 evs) = writesOf (muxLoop mk wk3 c3 t0 evs))
    ?_ ?_ ?_ ?_ ?_ c t0 evs wk2 c2
  · intro c3 t3 wk3 c4
    rw [muxLoop_nil, muxLoop_nil]
  · intro wCount t2 e rest htime env0 hmk ih wk3 c3
    replace hmk : mk (envelopeOf e.event) = true := hmk
    rw [muxLoop_event_ok mk wk wCount t2 e rest htime hmk,
        muxLoop_event_ok mk wk3 c3 t2 e rest htime hmk,
        writesOf_append, writesOf_append]
    have h1 : ∀ (w : Nat → Bool) (cc : Nat), writesOf
        (MuxAction.write e.time (envelopeOf e.event) (w cc) ::
          (if w cc then [] else [MuxAction.gdbExit e.time])) =
        [(e.time, envelopeOf e.event)] := by
      intro w cc
      rcases hok : w cc with _ | _ <;> simp [writesOf]
    rw [h1 wk wCount, h1 wk3 c3, ih wk3 (c3 + 1)]
  · intro wCount t2 e rest htime env0 hmk ih wk3 c3
    replace hmk : mk (envelopeOf e.event) = false := by
      rcases h : mk (envelopeOf e.event) with _ | _
      · rfl
      · exact absurd h hmk
    rw [muxLoop_event_dropped mk wk wCount t2 e rest htime hmk,
        muxLoop_event_dropped mk wk3 c3 t2 e rest htime hmk]
    exact ih wk3 c3
  · intro wCount t2 e rest htime hmk ih wk3 c3
    rw [muxLoop_hb_ok mk wk wCount t2 e rest htime hmk,
        muxLoop_hb_ok mk wk3 c3 t2 e rest htime hmk,
        writesOf_append, writesOf_append]
    have h1 : ∀ (w : Nat → Bool) (cc : Nat), writesOf
        (MuxAction.write (t2 + 30) heartbeatEnvelope (w cc) ::
          (if w cc then [] else [MuxAction.gdbExit (t2 + 30)])) =
        [(t2 + 30, (heartbeatEnvelope : WebSockResult α))] := by
      intro w cc
      rcases hok : w cc with _ | _ <;> simp [writesOf]
    rw [h1 wk wCount, h1 wk3 c3, ih wk3 (c3 + 1)]
  · intro wCount t2 e rest htime hmk ih wk3 c3
    replace hmk : mk (heartbeatEnvelope : WebSockResult α) = false := by
      rcases h : mk (heartbeatEnvelope : WebSockResult α) with _ | _
      · rfl
      · exact absurd h hmk
    rw [muxLoop_hb_dropped mk wk wCount t2 e rest htime hmk,
        muxLoop_hb_dropped mk wk3 c3 t2 e rest htime hmk]
    exact ih wk3 c3

/-- Claim C10: when json.Marshal fails on a backend event's envelope the
event is silently dropped — that iteration writes nothing and calls no
GdbExit, and the loop continues with the remaining events (the iteration
still resets the heartbeat timer to the event's arrival time); and in every
run the GdbExit calls correspond exactly to the failed writes, so a
marshalling failure never triggers session termination. -/
theorem mux_marshal_failure_silent_drop (mk : WebSockResult α → Bool)
    (wk : Nat → Bool) (c t0 : Nat) (e : TimedEvent α)
    (rest evs2 : List (TimedEvent α))
    (ht : e.time < t0 + 30) (hmk : mk (envelopeOf e.event) = false) :
    muxLoop mk wk c t0 (e :: rest) = muxLoop mk wk c e.time rest ∧
    countGdbExits (muxLoop mk wk c t0 evs2) =
      countFailedWrites (muxLoop mk wk c t0 evs2) :=
  ⟨muxLoop_event_dropped mk wk c t0 e rest ht hmk,
   muxLoop_exit_count mk wk c t0 evs2⟩

/-- Witness for C10: a marshal oracle that accepts only heartbeat envelopes
silently drops a console event. -/
theorem mux_marshal_failure_silent_drop_witness :
    muxLoop (fun env => env.type == "heartbeat") (fun _ => true) 0 0
        ([⟨0, .console "a"⟩] : List (TimedEvent Unit)) =
      muxLoop (fun env => env.type == "heartbeat") (fun _ => true) 0 0 [] ∧
    countGdbExits (muxLoop (fun env => env.type == "heartbeat") (fun _ => true)
        0 0 ([⟨0, .console "a"⟩] : List (TimedEvent Unit))) =
      countFailedWrites (muxLoop (fun env => env.type == "heartbeat")
        (fun _ => true) 0 0 ([⟨0, .console "a"⟩] : List (TimedEvent Unit))) :=
  mux_marshal_failure_silent_drop (fun env => env.type == "heartbeat")
    (fun _ => true) 0 0 ⟨0, .console "a"⟩ [] [⟨0, .console "a"⟩]
    (by decide) rfl

end Godbg
